import Mathlib

set_option maxRecDepth 8000

/-!
# Verification of the SmartyMe lesson ETL scripts

Shallow embedding of the three Python scripts

* `server/complete-lesson-replacement.py`  (the "complete" / Direct-id variant, suffix `C`)
* `server/process-68-lessons.py`           (the "68" variant, suffix `68`)
* `server/update-lessons-from-csv.py`      (the "update" / Sequential-id variant, suffix `Upd`)

together with the TypeScript lookup modules those scripts generate
(`detectLessonIdFormat`, `mapLongIdToShortId`, `resolveLessonId`, ...).

CSV rows are modelled as association lists from column name to cell string
(a Python `dict` produced by `csv.DictReader`).  Python / JavaScript strings
are modelled as Lean `String` (lists of characters); machine-independent
`int` arithmetic is `Int` / `Nat`.  A Python function that can raise is
modelled with `Option` (`none` = exception) at the point where the caller
catches the exception.
-/

namespace SmartyMe

/-! ## Character and string primitives -/

/-- The whitespace characters recognised by Python's `str.strip` / `re` `\s`
(ASCII range; all inputs in this development are ASCII). -/
def isWsChar (c : Char) : Bool :=
  c = ' ' ∨ c = '\t' ∨ c = '\n' ∨ c = '\x0d' ∨ c = '\x0b' ∨ c = '\x0c'

/-- Python `str.strip()` on a character list. -/
def pyStrip (cs : List Char) : List Char :=
  ((cs.dropWhile isWsChar).reverse.dropWhile isWsChar).reverse

/-- Python `str.strip()` on a `String`. -/
def pyStripS (s : String) : String :=
  String.mk (pyStrip s.data)

/-- Python `str.rstrip()` (trailing whitespace only). -/
def pyRstrip (cs : List Char) : List Char :=
  (cs.reverse.dropWhile isWsChar).reverse

/-- Python `s.replace(ab, r)` for a two-character pattern `a,b` replaced by the
single character `r` (used for `'""' -> '"'` and `"''" -> "'"`): left-to-right,
non-overlapping. -/
def replacePair (a b r : Char) : List Char → List Char
  | [] => []
  | [x] => [x]
  | x :: y :: rest =>
    if x = a ∧ y = b then r :: replacePair a b r rest
    else x :: replacePair a b r (y :: rest)

/-- `re.sub(r'\s+', ' ', s)`: every maximal whitespace run becomes one space.
Fuel-driven scan; `fuel = length` always suffices (each step consumes at least
one character). -/
def collapseWsAux : Nat → List Char → List Char
  | 0, cs => cs
  | _ + 1, [] => []
  | fuel + 1, c :: rest =>
    if isWsChar c then ' ' :: collapseWsAux fuel (rest.dropWhile isWsChar)
    else c :: collapseWsAux fuel rest

def collapseWs (cs : List Char) : List Char :=
  collapseWsAux cs.length cs

/-- `re.sub(r'[ \t]+', ' ', s)`: maximal runs of spaces/tabs become one space. -/
def isSpaceTab (c : Char) : Bool := c = ' ' ∨ c = '\t'

def collapseSpaceTabAux : Nat → List Char → List Char
  | 0, cs => cs
  | _ + 1, [] => []
  | fuel + 1, c :: rest =>
    if isSpaceTab c then ' ' :: collapseSpaceTabAux fuel (rest.dropWhile isSpaceTab)
    else c :: collapseSpaceTabAux fuel rest

def collapseSpaceTab (cs : List Char) : List Char :=
  collapseSpaceTabAux cs.length cs

/-- `re.sub(r'\n\s*\n\s*\n+', '\n\n', s)`.  A (leftmost, greedy) match starts
at a `'\n'`, is contained in the maximal whitespace run starting there, needs
at least three newlines in that run, and extends to the run's last newline;
it is replaced by exactly two newlines.  Fuel-driven; `fuel = length`
suffices. -/
def collapseNlRunsAux : Nat → List Char → List Char
  | 0, cs => cs
  | _ + 1, [] => []
  | fuel + 1, c :: rest =>
    if c = '\n' then
      let run := (c :: rest).takeWhile isWsChar
      if 3 ≤ (run.filter (· = '\n')).length then
        -- consume through the last newline of the run
        let consumed := run.length - (run.reverse.takeWhile (· ≠ '\n')).length
        '\n' :: '\n' :: collapseNlRunsAux fuel ((c :: rest).drop consumed)
      else c :: collapseNlRunsAux fuel rest
    else c :: collapseNlRunsAux fuel rest

def collapseNlRuns (cs : List Char) : List Char :=
  collapseNlRunsAux cs.length cs

/-- Does the text end in the truncation marker `"..."`? -/
def endsWithMarker (cs : List Char) : Bool :=
  match cs.reverse with
  | '.' :: '.' :: '.' :: _ => true
  | _ => false

/-- Does `needle` occur as a contiguous substring of `hay`?  (Python `in`,
JavaScript `String.prototype.includes`.) -/
def containsSub (needle : List Char) : List Char → Bool
  | [] => needle.isEmpty
  | c :: rest => needle.isPrefixOf (c :: rest) || containsSub needle rest

/-- Python `str.lower()` (ASCII). -/
def strLower (s : String) : String := String.mk (s.data.map Char.toLower)

/-! ## The three `clean_text` variants -/

/-- `clean_text` of `complete-lesson-replacement.py`: un-escape doubled
double-quotes, then strip trailing whitespace of every line, preserving the
line structure. -/
def cleanTextC (s : String) : String :=
  if s = "" then "" else
    let t := replacePair '"' '"' '"' s.data
    String.mk (List.intercalate ['\n'] ((t.splitOn '\n').map pyRstrip))

/-- `clean_text` of `process-68-lessons.py`: collapse all whitespace runs of
the stripped text to single spaces, then un-escape doubled quotes. -/
def cleanText68 (s : String) : String :=
  if s = "" then "" else
    let cleaned := collapseWs (pyStrip s.data)
    let cleaned := replacePair '"' '"' '"' cleaned
    let cleaned := replacePair '\'' '\'' '\'' cleaned
    String.mk cleaned

/-- `clean_text` of `update-lessons-from-csv.py`: squeeze runs of three or
more newlines (with interspersed whitespace) to a blank line, collapse
space/tab runs, then strip. -/
def cleanTextUpd (s : String) : String :=
  if s = "" then "" else
    String.mk (pyStrip (collapseSpaceTab (collapseNlRuns s.data)))

/-! ## CSV rows -/

/-- A CSV row as produced by `csv.DictReader`: an association list from
column name to cell value (first binding wins, like a `dict`). -/
abbrev Row := List (String × String)

/-- `row[k]` as an `Option` (`none` models a `KeyError`). -/
def rowGet (row : Row) (k : String) : Option String :=
  (row.find? (fun p => p.1 == k)).map (·.2)

/-- `row.get(k, d)`. -/
def rowGetD (row : Row) (k d : String) : String :=
  (rowGet row k).getD d

/-- `get_field_value` of `process-68-lessons.py`: first listed column that is
present with a truthy (non-empty) value. -/
def getFieldValue (row : Row) (fieldNames : List String) : Option String :=
  fieldNames.findSome? fun n =>
    match rowGet row n with
    | some v => if v ≠ "" then some v else none
    | none => none

/-! ## Numeric parsing and printing -/

/-- The digit part accepted by Python `int(s)`: decimal digits with single
interior `_` group separators. -/
def pyIntDigitsOk (cs : List Char) : Bool :=
  match cs with
  | [] => false
  | c :: _ =>
    c.isDigit && (match cs.getLast? with | some l => l.isDigit | none => false)
      && cs.all (fun d => d.isDigit || d = '_')
      && !containsSub ['_', '_'] cs

/-- Python `int(s)` (`none` models `ValueError`): optional surrounding
whitespace, optional sign, then digits with optional `_` grouping. -/
def pyInt? (s : String) : Option Int :=
  let cs := pyStrip s.data
  let (sign, digits) : Int × List Char :=
    match cs with
    | '-' :: rest => (-1, rest)
    | '+' :: rest => (1, rest)
    | _ => (1, cs)
  if pyIntDigitsOk digits then
    some (sign *
      ((digits.filter Char.isDigit).foldl (fun a c => 10 * a + (c.toNat - 48)) 0 : Nat))
  else none

/-- Python `str.isdigit()` (ASCII). -/
def pyIsDigit (s : String) : Bool :=
  !s.data.isEmpty && s.data.all Char.isDigit

/-- The decimal value of a digits-only character list. -/
def digitsVal (cs : List Char) : Nat :=
  cs.foldl (fun a c => 10 * a + (c.toNat - 48)) 0

/-- Decimal digit character for `n % 10`. -/
def digitChar10 (n : Nat) : Char :=
  match n with
  | 0 => '0' | 1 => '1' | 2 => '2' | 3 => '3' | 4 => '4'
  | 5 => '5' | 6 => '6' | 7 => '7' | 8 => '8' | _ => '9'

/-- Decimal digits of a natural number, most significant first (fuel-driven;
any `fuel ≥ n` gives the exact digits). -/
def natToDecAux : Nat → Nat → List Char → List Char
  | 0, n, acc => digitChar10 (n % 10) :: acc
  | fuel + 1, n, acc =>
    if n < 10 then digitChar10 n :: acc
    else natToDecAux fuel (n / 10) (digitChar10 (n % 10) :: acc)

def natToDec (n : Nat) : List Char := natToDecAux n n []

/-- Decimal string form of an integer (Python `str`, JS number printing for
integral values). -/
def intToDecString (n : Int) : String :=
  if n < 0 then String.mk ('-' :: natToDec n.natAbs) else String.mk (natToDec n.toNat)

/-! ## Data model -/

/-- One page of a content-store lesson. -/
structure Page where
  title : String
  content : String
deriving DecidableEq

/-- A lesson element of the written content store
(`server/course-content.json`). -/
structure StoreLesson where
  id : Int
  longId : String
  courseId : Int
  title : String
  description : String
  coverImage : String
  pages : List Page
deriving DecidableEq

/-- The intermediate lesson record built by `parse_lesson_row` in
`process-68-lessons.py` and `update-lessons-from-csv.py`. -/
structure Lesson where
  id : Int
  longId : String
  courseId : Int
  title : String
  description : String
  coverImage : String
  content : String
deriving DecidableEq

/-- An entry of the generated `LESSON_MAPPINGS` array. -/
structure LessonMapping where
  shortId : Int
  longId : String
  title : String
deriving DecidableEq

/-- Result of the generated `detectLessonIdFormat`. -/
inductive IdFormat where
  | short
  | long
  | invalid
deriving DecidableEq

/-! ## Sorting (Python `list.sort(key=...)`) -/

/-- `lessons.sort(key=lambda x: x['id'])`, ascending and stable. -/
def sortById (ls : List StoreLesson) : List StoreLesson :=
  List.insertionSort (fun a b => a.id ≤ b.id) ls

/-- Same for intermediate lessons. -/
def sortLessonsById (ls : List Lesson) : List Lesson :=
  List.insertionSort (fun a b => a.id ≤ b.id) ls

/-- `mappings.sort(key=lambda x: x['shortId'])`. -/
def sortByShortId (ms : List LessonMapping) : List LessonMapping :=
  List.insertionSort (fun a b => a.shortId ≤ b.shortId) ms

/-! ## complete-lesson-replacement.py -/

/-- The `len(description) > 300` truncation of `parse_csv_lessons`
(`description[:297] + "..."`). -/
def truncateDescriptionC (d : String) : String :=
  if d.length > 300 then String.mk (d.data.take 297 ++ ['.', '.', '.']) else d

/-- Accumulator state of the row loop in `parse_csv_lessons`
(`lessons`, `lesson_mappings`, `processed_count`, `skipped_count`). -/
structure ParseStateC where
  lessons : List StoreLesson
  mappings : List LessonMapping
  processed : Nat
  skipped : Nat
deriving DecidableEq

/-- One iteration of the row loop of `parse_csv_lessons`
(`complete-lesson-replacement.py`).  A missing column or non-numeric
`lesson_id_new` raises inside the `try`, which the `except` turns into a
skip; empty `lesson_id` / `title` take the explicit skip branch. -/
def processRowC (st : ParseStateC) (row : Row) : ParseStateC :=
  match rowGet row "lesson_id_new", rowGet row "lesson_id", rowGet row "title",
        rowGet row "description", rowGet row "text" with
  | some idNewS, some lidS, some titleS, some descS, some textS =>
    match pyInt? idNewS with
    | none => { st with skipped := st.skipped + 1 }
    | some lessonIdNew =>
      let lessonId := pyStripS lidS
      let title := cleanTextC titleS
      let description := cleanTextC descS
      let text := cleanTextC textS
      if lessonId = "" ∨ title = "" then { st with skipped := st.skipped + 1 }
      else
        let description := truncateDescriptionC description
        let lesson : StoreLesson :=
          { id := lessonIdNew
            longId := lessonId
            courseId := 8
            title := title
            description := description
            coverImage := "lesson_" ++ intToDecString lessonIdNew ++ "_cover.jpg"
            pages := [{ title := "Content", content := text }] }
        { st with
          lessons := st.lessons ++ [lesson]
          mappings := st.mappings ++ [⟨lessonIdNew, lessonId, title⟩]
          processed := st.processed + 1 }
  | _, _, _, _, _ => { st with skipped := st.skipped + 1 }

/-- The row loop of `parse_csv_lessons` before the final sorts. -/
def parseStateC (rows : List Row) : ParseStateC :=
  rows.foldl processRowC ⟨[], [], 0, 0⟩

/-- `parse_csv_lessons`: the returned `(lessons, lesson_mappings)` pair,
each sorted ascending by its numeric id. -/
def parseCsvLessonsC (rows : List Row) : List StoreLesson × List LessonMapping :=
  let st := parseStateC rows
  (sortById st.lessons, sortByShortId st.mappings)

/-- `generate_lesson_mappings` of `complete-lesson-replacement.py`: the
`LESSON_MAPPINGS` array is rebuilt from the (already sorted) lessons, in
lesson order. -/
def generateLessonMappingsC (lessons : List StoreLesson) : List LessonMapping :=
  lessons.map fun l => ⟨l.id, l.longId, l.title⟩

/-- `create_backup`: reading the current store can fail (`none`); the
exception is caught and turned into the return value `false` with no backup
written.  On success the current contents are copied to the timestamped
backup file. -/
def createBackup (currentStore : Option String) : Bool × Option String :=
  match currentStore with
  | some data => (true, some data)
  | none => (false, none)

/-- Result of one run of `main` in `complete-lesson-replacement.py`
(the file contents written, not the console output). -/
structure RunResultC where
  backupCreated : Bool
  backupContent : Option String
  storeWritten : Option (List StoreLesson)
  mappingModuleWritten : Option (List LessonMapping)
deriving DecidableEq

/-- `main` of `complete-lesson-replacement.py`: backup (never fatal), parse,
early return when no lesson was accepted, otherwise write the store and
generate the mapping module (identically to the server and client copies). -/
def mainC (currentStore : Option String) (rows : List Row) : RunResultC :=
  let (ok, backup) := createBackup currentStore
  let (lessons, _mappings) := parseCsvLessonsC rows
  if lessons = [] then
    { backupCreated := ok, backupContent := backup
      storeWritten := none, mappingModuleWritten := none }
  else
    { backupCreated := ok, backupContent := backup
      storeWritten := some lessons
      mappingModuleWritten := some (generateLessonMappingsC lessons) }

/-! ## process-68-lessons.py -/

/-- `create_description`: clean, then keep the first 300 characters and
append the marker when longer than 300. -/
def createDescription (content : String) : String :=
  if content = "" then "" else
    let description := cleanText68 content
    if description.length > 300 then
      String.mk (description.data.take 300 ++ ['.', '.', '.'])
    else description

/-- The keyword → course-id table of `extract_course_id`, in source
(insertion) order. -/
def courseMapping : List (String × Int) :=
  [("communication_skills", 8), ("public_speaking", 9), ("leadership", 10),
   ("workplace", 11), ("relationship", 12), ("negotiation", 13),
   ("presentation", 14), ("confidence", 15)]

/-- The prefix of a character list before the first occurrence of `"__"`
(`long_id.split('__')[0]`). -/
def takeUntilDunder : List Char → List Char
  | [] => []
  | '_' :: '_' :: _ => []
  | c :: rest => c :: takeUntilDunder rest

/-- `extract_course_id` of `process-68-lessons.py`. -/
def extractCourseId (longId : String) : Int :=
  if longId = "" then 1 else
    let lower := strLower longId
    let topic :=
      if containsSub ['_', '_'] longId.data then String.mk (takeUntilDunder lower.data)
      else lower
    match courseMapping.findSome? (fun kv =>
        if containsSub kv.1.data topic.data then some kv.2 else none) with
    | some cid => cid
    | none => 1

/-- `generate_cover_image_name` of `process-68-lessons.py`: drop everything
but ASCII alphanumerics and whitespace, drop the whitespace, keep at most 30
characters. -/
def generateCoverImageName68 (title : String) : String :=
  if title = "" then "default_cover.jpg" else
    let filename := title.data.filter fun c => c.isAlphanum ∨ isWsChar c
    let filename := filename.filter fun c => ¬ isWsChar c
    String.mk (filename.take 30) ++ "_cover.jpg"

/-- `parse_lesson_row` of `process-68-lessons.py`: alias-based field lookup,
required `lesson_id` / `long_id` / `title`, integer `lesson_id`, course id
from the CSV when it is digits, otherwise derived from the long id. -/
def parseLessonRow68 (row : Row) : Option Lesson :=
  match getFieldValue row ["lesson_id_new", "id", "lesson_id"],
        getFieldValue row ["lesson_id", "long_id", "lesson_long_id"],
        getFieldValue row ["title", "lesson_title", "name"] with
  | some lessonIdS, some longId, some title =>
    match pyInt? lessonIdS with
    | none => none
    | some lessonId =>
      let content := (getFieldValue row ["text", "description", "content"]).getD ""
      let courseIdS := getFieldValue row ["course_id_new", "course_id"]
      some
        { id := lessonId
          longId := pyStripS longId
          title := cleanText68 title
          description := createDescription content
          content := cleanText68 content
          courseId :=
            match courseIdS with
            | some cid => if pyIsDigit cid then ((pyInt? cid).getD 0) else extractCourseId longId
            | none => extractCourseId longId
          coverImage := generateCoverImageName68 title }
  | _, _, _ => none

/-- `parse_lessons_csv` of `process-68-lessons.py`: keep the accepted rows
in source order. -/
def parseLessonsCsv68 (rows : List Row) : List Lesson :=
  rows.filterMap parseLessonRow68

/-- `generate_lesson_mappings` of `process-68-lessons.py` and
`update-lessons-from-csv.py` (identical there): project the lessons to
mapping entries and sort by `shortId`. -/
def generateMappingsSorted (lessons : List Lesson) : List LessonMapping :=
  sortByShortId (lessons.map fun l => ⟨l.id, l.longId, l.title⟩)

/-- `generate_course_content` of `process-68-lessons.py` and
`update-lessons-from-csv.py` (identical there): wrap each lesson's content
in the single `"Content"` page and sort by id. -/
def generateCourseContent (lessons : List Lesson) : List StoreLesson :=
  sortById (lessons.map fun l =>
    { id := l.id, longId := l.longId, courseId := l.courseId, title := l.title
      description := l.description, coverImage := l.coverImage
      pages := [{ title := "Content", content := l.content }] })

/-! ## update-lessons-from-csv.py -/

/-- Python `str.capitalize()`: first character upper-cased, the rest
lower-cased (ASCII). -/
def pyCapitalize : List Char → List Char
  | [] => []
  | c :: rest => c.toUpper :: rest.map Char.toLower

/-- Python `str.split()` with no argument: split on whitespace runs,
dropping empty words.  Fuel-driven; `fuel = length` suffices. -/
def pySplitWsAux : Nat → List Char → List (List Char)
  | 0, _ => []
  | _ + 1, [] => []
  | fuel + 1, c :: rest =>
    if isWsChar c then pySplitWsAux fuel (rest.dropWhile isWsChar)
    else (c :: rest.takeWhile (fun d => ¬ isWsChar d)) ::
      pySplitWsAux fuel (rest.dropWhile (fun d => ¬ isWsChar d))

def pySplitWs (cs : List Char) : List (List Char) :=
  pySplitWsAux cs.length cs

/-- `generate_cover_image_name` of `update-lessons-from-csv.py`: remove
non-word/non-space characters, split into words, camelCase them. -/
def generateCoverImageNameUpd (title : String) : String :=
  let cleanTitle := title.data.filter fun c => c.isAlphanum ∨ c = '_' ∨ isWsChar c
  let words := pySplitWs cleanTitle
  match words with
  | [] => "lesson_cover.jpg"
  | w :: ws =>
    let camel := w.map Char.toLower ++ (ws.map pyCapitalize).flatten
    String.mk camel ++ "_cover.jpg"

/-- `parse_lesson_row` of `update-lessons-from-csv.py`.  Note that the
truncation test reads the length of the raw (pre-`clean_text`) description
while the slice is taken from the cleaned description. -/
def parseLessonRowUpd (row : Row) (sequenceId : Int) : Option Lesson :=
  let title := pyStripS (rowGetD row "title" "")
  let legacyId := pyStripS (rowGetD row "legacy_id" "")
  let text := pyStripS (rowGetD row "text" "")
  let shortDescription := pyStripS (rowGetD row "short_description" "")
  let description := pyStripS (rowGetD row "description" "")
  if title = "" ∨ legacyId = "" ∨ text = "" then none
  else
    let coverImage := generateCoverImageNameUpd title
    let lessonDescription := if description ≠ "" then description else shortDescription
    some
      { id := sequenceId
        longId := legacyId
        courseId := 8
        title := title
        description :=
          if lessonDescription.length > 200 then
            String.mk ((cleanTextUpd lessonDescription).data.take 200 ++ ['.', '.', '.'])
          else cleanTextUpd lessonDescription
        coverImage := coverImage
        content := cleanTextUpd text }

/-- The description source chosen by `parse_lesson_row` of
`update-lessons-from-csv.py`: the stripped `description` column when
non-empty, otherwise the stripped `short_description` column
(`description if description else short_description`). -/
def descSourceUpd (row : Row) : String :=
  let shortDescription := pyStripS (rowGetD row "short_description" "")
  let description := pyStripS (rowGetD row "description" "")
  if description ≠ "" then description else shortDescription

/-- The row loop of `parse_lessons_csv` in `update-lessons-from-csv.py`:
`for idx, row in enumerate(csv_reader): parse_lesson_row(row, idx + 1)`,
keeping accepted rows.  `n` is the sequence id handed to the next row. -/
def parseLessonsCsvUpdAux (n : Int) : List Row → List Lesson
  | [] => []
  | row :: rest =>
    match parseLessonRowUpd row n with
    | some lesson => lesson :: parseLessonsCsvUpdAux (n + 1) rest
    | none => parseLessonsCsvUpdAux (n + 1) rest

/-- `parse_lessons_csv` of `update-lessons-from-csv.py`. -/
def parseLessonsCsvUpd (rows : List Row) : List Lesson :=
  parseLessonsCsvUpdAux 1 rows

/-! ## The generated lookup module (`lesson-mapping.ts`)

Each script writes a TypeScript module whose functions close over the
generated `LESSON_MAPPINGS` array; here they take the array as a first
argument. -/

/-- The JavaScript test `/^\d+$/.test(s)`: non-empty and decimal digits
only. -/
def jsDigitsTest (s : String) : Bool :=
  !s.data.isEmpty && s.data.all Char.isDigit

/-- `detectLessonIdFormat` as generated by `complete-lesson-replacement.py`:
`long` needs the delimiter AND length above 10. -/
def detectLessonIdFormatC (lessonId : String) : IdFormat :=
  if jsDigitsTest lessonId then .short
  else if lessonId.data.contains '_' ∧ lessonId.length > 10 then .long
  else .invalid

/-- `detectLessonIdFormat` as generated by `process-68-lessons.py` and
`update-lessons-from-csv.py`: `long` needs the delimiter OR length above
10. -/
def detectLessonIdFormat68 (lessonId : String) : IdFormat :=
  if jsDigitsTest lessonId then .short
  else if lessonId.data.contains '_' ∨ lessonId.length > 10 then .long
  else .invalid

/-- Value of an ASCII hex digit. -/
def hexVal (c : Char) : Option Nat :=
  if '0' ≤ c ∧ c ≤ '9' then some (c.toNat - 48)
  else if 'A' ≤ c ∧ c ≤ 'F' then some (c.toNat - 55)
  else if 'a' ≤ c ∧ c ≤ 'f' then some (c.toNat - 87)
  else none

/-- One `%HH` escape at the head of the list: its byte value and the rest. -/
def pctByte : List Char → Option (Nat × List Char)
  | '%' :: h1 :: h2 :: rest =>
    match hexVal h1, hexVal h2 with
    | some a, some b => some (16 * a + b, rest)
    | _, _ => none
  | _ => none

/-- A `%HH` UTF-8 continuation byte (`0x80`–`0xBF`): its payload bits. -/
def contByte (cs : List Char) : Option (Nat × List Char) :=
  match pctByte cs with
  | some (b, r) => if 0x80 ≤ b ∧ b < 0xC0 then some (b - 0x80, r) else none
  | none => none

/-- One percent-encoded UTF-8 character sequence at the head of the list
(JavaScript `decodeURIComponent` semantics; `none` models `URIError`). -/
def decodePctSeq (cs : List Char) : Option (Char × List Char) :=
  match pctByte cs with
  | none => none
  | some (b, r) =>
    if b < 0x80 then some (Char.ofNat b, r)
    else if b < 0xC2 then none
    else if b < 0xE0 then
      match contByte r with
      | some (x, r2) => some (Char.ofNat ((b - 0xC0) * 64 + x), r2)
      | none => none
    else if b < 0xF0 then
      match contByte r with
      | some (x, r2) =>
        match contByte r2 with
        | some (y, r3) =>
          let cp := (b - 0xE0) * 4096 + x * 64 + y
          if cp < 0x800 ∨ (0xD800 ≤ cp ∧ cp < 0xE000) then none
          else some (Char.ofNat cp, r3)
        | none => none
      | none => none
    else if b < 0xF5 then
      match contByte r with
      | some (x, r2) =>
        match contByte r2 with
        | some (y, r3) =>
          match contByte r3 with
          | some (z, r4) =>
            let cp := (b - 0xF0) * 262144 + x * 4096 + y * 64 + z
            if cp < 0x10000 ∨ 0x10FFFF < cp then none
            else some (Char.ofNat cp, r4)
          | none => none
        | none => none
      | none => none
    else none

/-- Percent-decoding scan (fuel-driven; `fuel = length` suffices because
every step consumes at least one character). -/
def decodeUriAux : Nat → List Char → Option (List Char)
  | 0, cs => if cs.isEmpty then some [] else none
  | _ + 1, [] => some []
  | fuel + 1, c :: rest =>
    if c = '%' then
      match decodePctSeq (c :: rest) with
      | none => none
      | some (ch, r) => (decodeUriAux fuel r).map (ch :: ·)
    else (decodeUriAux fuel rest).map (c :: ·)

/-- JavaScript `decodeURIComponent` (`none` models a thrown `URIError`). -/
def decodeUriComponent (s : String) : Option String :=
  (decodeUriAux s.data.length s.data).map String.mk

/-- `mapLongIdToShortId` as generated by `complete-lesson-replacement.py`
and `update-lessons-from-csv.py`: exact match only. -/
def mapLongIdToShortIdC (mappings : List LessonMapping) (longId : String) : Option Int :=
  (mappings.find? (fun m => m.longId == longId)).map (·.shortId)

/-- `mapLongIdToShortId` as generated by `process-68-lessons.py`: decode the
id, try exact match, then the substring-containment fallback.  The outer
`Option` models a thrown `URIError`; the inner one the `null` result. -/
def mapLongIdToShortId68 (mappings : List LessonMapping) (longId : String) :
    Option (Option Int) :=
  match decodeUriComponent longId with
  | none => none
  | some decoded =>
    match mappings.find? (fun m => m.longId == decoded) with
    | some m => some (some m.shortId)
    | none =>
      match mappings.find? (fun m =>
          containsSub decoded.data m.longId.data ||
          containsSub m.longId.data decoded.data) with
      | some m => some (some m.shortId)
      | none => some none

/-- `mapShortIdToLongId` (generated by the 68 and update variants). -/
def mapShortIdToLongId (mappings : List LessonMapping) (shortId : Int) : Option String :=
  (mappings.find? (fun m => m.shortId == shortId)).map (·.longId)

/-- `resolveLessonId` as generated by `complete-lesson-replacement.py`.
In the `short` branch `parseInt` is applied to a string the `short` format
guarantees to be digits-only, so it yields its decimal value. -/
def resolveLessonIdC (mappings : List LessonMapping) (lessonId : String) : Option Int :=
  match detectLessonIdFormatC lessonId with
  | .short => some (digitsVal lessonId.data : Nat)
  | .long => mapLongIdToShortIdC mappings lessonId
  | .invalid => none

/-- `resolveLessonId` as generated by `update-lessons-from-csv.py`. -/
def resolveLessonIdUpd (mappings : List LessonMapping) (lessonId : String) : Option Int :=
  match detectLessonIdFormat68 lessonId with
  | .short => some (digitsVal lessonId.data : Nat)
  | .long => mapLongIdToShortIdC mappings lessonId
  | .invalid => none

/-- `resolveLessonId` as generated by `process-68-lessons.py` (its `long`
branch calls the decoding, fuzzy `mapLongIdToShortId`; the outer `Option`
models a thrown `URIError`). -/
def resolveLessonId68 (mappings : List LessonMapping) (lessonId : String) :
    Option (Option Int) :=
  match detectLessonIdFormat68 lessonId with
  | .short => some (some (digitsVal lessonId.data : Nat))
  | .long => mapLongIdToShortId68 mappings lessonId
  | .invalid => some none

/-! ## Helper lemmas -/

lemma endsWithMarker_append (xs : List Char) :
    endsWithMarker (xs ++ ['.', '.', '.']) = true := by
  simp [endsWithMarker, List.reverse_append]

lemma cleanText68_empty : cleanText68 "" = "" := rfl

lemma digitChar10_isDigit (d : Nat) : (digitChar10 d).isDigit = true := by
  unfold digitChar10
  split <;> rfl

lemma digitChar10_val (d : Nat) (h : d < 10) : (digitChar10 d).toNat - 48 = d := by
  unfold digitChar10
  split <;> simp_all <;> omega

lemma natToDecAux_acc (fuel : Nat) :
    ∀ n acc, natToDecAux fuel n acc = natToDecAux fuel n [] ++ acc := by
  induction fuel with
  | zero => intro n acc; simp [natToDecAux]
  | succ fuel ih =>
    intro n acc
    by_cases h : n < 10
    · simp [natToDecAux, h]
    · simp only [natToDecAux, if_neg h]
      rw [ih (n / 10) (digitChar10 (n % 10) :: acc), ih (n / 10) [digitChar10 (n % 10)]]
      simp

lemma digitsVal_append_one (xs : List Char) (c : Char) :
    digitsVal (xs ++ [c]) = 10 * digitsVal xs + (c.toNat - 48) := by
  simp [digitsVal, List.foldl_append]

lemma digitsVal_natToDecAux : ∀ fuel n, n ≤ fuel → digitsVal (natToDecAux fuel n []) = n := by
  intro fuel
  induction fuel with
  | zero =>
    intro n h
    interval_cases n
    decide
  | succ fuel ih =>
    intro n h
    by_cases hlt : n < 10
    · simp only [natToDecAux, if_pos hlt]
      have := digitChar10_val n hlt
      simp [digitsVal]
      omega
    · simp only [natToDecAux, if_neg hlt]
      rw [natToDecAux_acc, digitsVal_append_one]
      have hdiv : n / 10 < n := Nat.div_lt_self (by omega) (by omega)
      rw [ih (n / 10) (by omega)]
      have := digitChar10_val (n % 10) (Nat.mod_lt _ (by omega))
      omega

lemma digitsVal_natToDec (n : Nat) : digitsVal (natToDec n) = n :=
  digitsVal_natToDecAux n n le_rfl

lemma natToDecAux_all_digits (fuel : Nat) :
    ∀ n acc, acc.all Char.isDigit = true →
      (natToDecAux fuel n acc).all Char.isDigit = true := by
  induction fuel with
  | zero => intro n acc h; simp [natToDecAux, digitChar10_isDigit, h]
  | succ fuel ih =>
    intro n acc h
    by_cases hlt : n < 10
    · simp [natToDecAux, hlt, digitChar10_isDigit, h]
    · simp only [natToDecAux, if_neg hlt]
      exact ih _ _ (by simp [digitChar10_isDigit, h])

lemma natToDec_ne_nil (n : Nat) : natToDec n ≠ [] := by
  unfold natToDec
  cases n with
  | zero => simp [natToDecAux]
  | succ m =>
    by_cases hlt : m + 1 < 10
    · simp [natToDecAux, hlt]
    · simp only [natToDecAux, if_neg hlt]
      rw [natToDecAux_acc]
      simp

lemma jsDigitsTest_natToDec (n : Nat) : jsDigitsTest (String.mk (natToDec n)) = true := by
  have h1 := natToDec_ne_nil n
  have h2 := natToDecAux_all_digits n n [] rfl
  simp only [jsDigitsTest]
  simp_all [natToDec, List.isEmpty_iff]

lemma decodeUriAux_noPct : ∀ fuel cs, cs.length ≤ fuel → '%' ∉ cs →
    decodeUriAux fuel cs = some cs := by
  intro fuel
  induction fuel with
  | zero =>
    intro cs h1 _
    have hcs : cs = [] := List.length_eq_zero.mp (Nat.le_zero.mp h1)
    subst hcs
    rfl
  | succ fuel ih =>
    intro cs h1 h2
    match cs with
    | [] => rfl
    | c :: rest =>
      have hc : ¬ c = '%' := fun h => h2 (h ▸ List.mem_cons_self c rest)
      have hrest : '%' ∉ rest := fun h => h2 (List.mem_cons_of_mem c h)
      simp only [decodeUriAux, if_neg hc]
      rw [ih rest (by simpa using h1) hrest]
      rfl

lemma decodeUriComponent_noPct (s : String) (h : '%' ∉ s.data) :
    decodeUriComponent s = some s := by
  simp only [decodeUriComponent]
  rw [decodeUriAux_noPct s.data.length s.data le_rfl h]
  rfl

/-! ## Claims

Each claim of the specification gets exactly one theorem (plus, where
required, a witness instantiating its hypotheses, or a counterexample
refuting the claim as originally stated). -/

/-- **C5** — counterexample.  The claim states that every non-digits-only
string that contains `"_"` OR has length above 10 classifies as `long` in
the generated classifier.  The classifier generated by
`complete-lesson-replacement.py` requires BOTH conditions: the 11-character
underscore-free string `"abcdefghijk"` is not digits-only and exceeds the
length threshold, yet classifies as `invalid`, not `long`. -/
theorem c5_counterexample :
    detectLessonIdFormatC "abcdefghijk" ≠ IdFormat.long ∧
    jsDigitsTest "abcdefghijk" = false ∧
    10 < "abcdefghijk".length := by
  refine ⟨by decide, by decide, by decide⟩

/-- **C5** — amended.  The classifier generated by `process-68-lessons.py`
and `update-lessons-from-csv.py` maps digits-only strings to `short`,
non-digits-only strings containing `"_"` or longer than 10 to `long`, and
everything else to `invalid`; the classifier generated by
`complete-lesson-replacement.py` is identical except that `long` requires the
delimiter AND length above 10.  The three cited examples hold in both
variants. -/
theorem c5_detectFormat :
    (∀ s, detectLessonIdFormat68 s = IdFormat.short ↔ jsDigitsTest s = true) ∧
    (∀ s, detectLessonIdFormat68 s = IdFormat.long ↔
      jsDigitsTest s = false ∧ (s.data.contains '_' = true ∨ 10 < s.length)) ∧
    (∀ s, detectLessonIdFormat68 s = IdFormat.invalid ↔
      jsDigitsTest s = false ∧ s.data.contains '_' = false ∧ s.length ≤ 10) ∧
    (∀ s, detectLessonIdFormatC s = IdFormat.short ↔ jsDigitsTest s = true) ∧
    (∀ s, detectLessonIdFormatC s = IdFormat.long ↔
      jsDigitsTest s = false ∧ s.data.contains '_' = true ∧ 10 < s.length) ∧
    detectLessonIdFormat68 "123" = IdFormat.short ∧
    detectLessonIdFormatC "123" = IdFormat.short ∧
    detectLessonIdFormat68 "public_speaking__intro_01" = IdFormat.long ∧
    detectLessonIdFormatC "public_speaking__intro_01" = IdFormat.long ∧
    detectLessonIdFormat68 "" = IdFormat.invalid ∧
    detectLessonIdFormatC "" = IdFormat.invalid := by
  refine ⟨?_, ?_, ?_, ?_, ?_, by decide, by decide, by decide, by decide, by decide, by decide⟩ <;>
    intro s <;> simp only [detectLessonIdFormat68, detectLessonIdFormatC] <;>
    split_ifs with h1 h2 <;> simp_all <;> tauto

/-- Witness for C5: the characterizations instantiated at `"123"`. -/
theorem c5_detectFormat_witness :
    detectLessonIdFormat68 "123" = IdFormat.short :=
  (c5_detectFormat.1 "123").mpr (by decide)

/-- **C3** — counterexample.  Under the 300-character policy of
`create_description` (`process-68-lessons.py`), a (cleaned) description
source of 350 characters yields 303 characters — the first 300 plus the
appended marker — not exactly 300 as claimed. -/
theorem c3_counterexample :
    (createDescription (String.mk (List.replicate 350 'a'))).length = 303 ∧
    (createDescription (String.mk (List.replicate 350 'a'))).length ≠ 300 := by
  constructor <;> decide

/-- **C3** — amended.  Under the 300-character policy of
`complete-lesson-replacement.py` (`description[:297] + "..."`), a
description of length 350 yields exactly 300 characters ending in the
marker and one of length 250 is returned unchanged; under the
300-character policy of `process-68-lessons.py`
(`description[:300] + "..."`), a cleaned description source of length 350
yields 303 characters ending in the marker, and one of length 250 is
returned unchanged. -/
theorem c3_truncation :
    (∀ d : String, d.length = 350 →
      (truncateDescriptionC d).length = 300 ∧
      endsWithMarker (truncateDescriptionC d).data = true) ∧
    (∀ d : String, d.length = 250 → truncateDescriptionC d = d) ∧
    (∀ s : String, (cleanText68 s).length = 350 →
      (createDescription s).length = 303 ∧
      endsWithMarker (createDescription s).data = true) ∧
    (∀ s : String, (cleanText68 s).length = 250 →
      createDescription s = cleanText68 s) := by
  refine ⟨?_, ?_, ?_, ?_⟩
  · intro d h
    have hgt : d.length > 300 := by omega
    constructor
    · simp [truncateDescriptionC, if_pos hgt, h]
    · simp only [truncateDescriptionC, if_pos hgt]
      exact endsWithMarker_append _
  · intro d h
    simp [truncateDescriptionC, h]
  · intro s h
    rcases eq_or_ne s "" with rfl | hne
    · simp [cleanText68_empty] at h
    · have hgt : (cleanText68 s).length > 300 := by omega
      constructor
      · simp [createDescription, if_neg hne, if_pos hgt, h]
      · simp only [createDescription, if_neg hne, if_pos hgt]
        exact endsWithMarker_append _
  · intro s h
    rcases eq_or_ne s "" with rfl | hne
    · rfl
    · have hle : ¬ (cleanText68 s).length > 300 := by omega
      simp [createDescription, if_neg hne, if_neg hle]

/-- Witness for C3: the amended statement instantiated at concrete strings
of lengths 350 and 250. -/
theorem c3_truncation_witness :
    (truncateDescriptionC (String.mk (List.replicate 350 'b'))).length = 300 ∧
    truncateDescriptionC (String.mk (List.replicate 250 'b')) = String.mk (List.replicate 250 'b') ∧
    (createDescription (String.mk (List.replicate 350 'a'))).length = 303 :=
  ⟨(c3_truncation.1 (String.mk (List.replicate 350 'b')) (by decide)).1,
   c3_truncation.2.1 (String.mk (List.replicate 250 'b')) (by decide),
   (c3_truncation.2.2.1 (String.mk (List.replicate 350 'a')) (by decide)).1⟩

/-- **C9** — confirmed.  For every digits-only input string, the generated
`resolveLessonId` (update and process-68 variants) takes the `short` branch:
it returns the parsed integer for every mapping table (so it is independent
of the table), and in particular never returns null even when no entry has
that short id. -/
theorem c9_short_bypasses_table :
    ∀ (mappings : List LessonMapping) (s : String), jsDigitsTest s = true →
      resolveLessonIdUpd mappings s = some (digitsVal s.data : Nat) ∧
      resolveLessonIdUpd mappings s ≠ none ∧
      resolveLessonId68 mappings s = some (some ((digitsVal s.data : Nat) : Int)) ∧
      resolveLessonId68 mappings s ≠ some none := by
  intro mappings s h
  have h68 : detectLessonIdFormat68 s = IdFormat.short := by
    simp [detectLessonIdFormat68, h]
  refine ⟨?_, ?_, ?_, ?_⟩ <;> simp [resolveLessonIdUpd, resolveLessonId68, h68]

/-- Witness for C9: `"999"` resolves to 999 against the empty mapping
table in both variants. -/
theorem c9_short_bypasses_table_witness :
    resolveLessonIdUpd [] "999" = some 999 ∧
    resolveLessonId68 [] "999" = some (some 999) := by
  have h := c9_short_bypasses_table [] "999" (by decide)
  exact ⟨h.1, h.2.2.1⟩

/-- **C8** — confirmed.  `create_backup` catches its own read failure: when
the current content store cannot be read it returns `false` (a warning)
instead of raising, and `main` goes on to parse and write exactly the same
content-store and mapping-module outputs as a run whose backup succeeded. -/
theorem c8_backup_failure_nonfatal :
    ∀ (rows : List Row) (d : String),
      (createBackup none).1 = false ∧
      (mainC none rows).storeWritten = (mainC (some d) rows).storeWritten ∧
      (mainC none rows).mappingModuleWritten = (mainC (some d) rows).mappingModuleWritten := by
  intro rows d
  refine ⟨rfl, ?_, ?_⟩ <;> simp only [mainC, createBackup] <;> split <;> rfl

/-- **C4** — counterexample.  A mapping table generated by
`process-68-lessons.py` from a CSV whose long id is `"abc"` (no `"_"`,
length ≤ 10) contains the entry `(7, "abc", "T")`, yet the generated
`resolveLessonId` applied to that entry's `longId` classifies it `invalid`
and returns null instead of 7. -/
theorem c4_counterexample :
    generateMappingsSorted (parseLessonsCsv68
      [[("lesson_id_new", "7"), ("lesson_id", "abc"), ("title", "T"), ("text", "body")]]) =
      [⟨7, "abc", "T"⟩] ∧
    resolveLessonId68 [⟨7, "abc", "T"⟩] "abc" = some none := by
  constructor <;> decide

/-- **C4** — amended.  For a mapping entry `e` whose `shortId` is
non-negative (so its decimal form is digits-only), whose `longId`
classifies as `long`, contains no `'%'` (so URI-decoding returns it
unchanged), and is the first entry of the table with that `longId`, the
generated `resolveLessonId` returns `e.shortId` both on the decimal string
form of `e.shortId` and on `e.longId`. -/
theorem c4_roundtrip (mappings : List LessonMapping) (e : LessonMapping)
    (hpos : 0 ≤ e.shortId)
    (hfmt : detectLessonIdFormat68 e.longId = IdFormat.long)
    (hnp : '%' ∉ e.longId.data)
    (hfirst : mappings.find? (fun m => m.longId == e.longId) = some e) :
    resolveLessonId68 mappings (intToDecString e.shortId) = some (some e.shortId) ∧
    resolveLessonId68 mappings e.longId = some (some e.shortId) := by
  constructor
  · have hs : intToDecString e.shortId = String.mk (natToDec e.shortId.toNat) := by
      unfold intToDecString
      rw [if_neg (by omega)]
    rw [hs]
    have hfmt2 : detectLessonIdFormat68 (String.mk (natToDec e.shortId.toNat)) =
        IdFormat.short := by
      simp [detectLessonIdFormat68, jsDigitsTest_natToDec]
    simp only [resolveLessonId68, hfmt2]
    have : digitsVal (natToDec e.shortId.toNat) = e.shortId.toNat := digitsVal_natToDec _
    simp [this, Int.toNat_of_nonneg hpos]
  · simp only [resolveLessonId68, hfmt, mapLongIdToShortId68,
      decodeUriComponent_noPct e.longId hnp, hfirst]

/-- Witness for C4: the round trip instantiated at the concrete entry
`(5, "topic__unit_01", "Intro")`. -/
theorem c4_roundtrip_witness :
    resolveLessonId68 [⟨5, "topic__unit_01", "Intro"⟩] (intToDecString 5) = some (some 5) ∧
    resolveLessonId68 [⟨5, "topic__unit_01", "Intro"⟩] "topic__unit_01" = some (some 5) :=
  c4_roundtrip [⟨5, "topic__unit_01", "Intro"⟩] ⟨5, "topic__unit_01", "Intro"⟩
    (by decide) (by decide) (by decide) (by decide)

/-- **C10** — counterexample.  The claim's "if and only if" fails in the
forward direction: a row whose raw description is `"a..."` (length 4, no
truncation) produces an output description that nevertheless ends in the
marker. -/
theorem c10_counterexample :
    ((parseLessonRowUpd
        [("title", "T"), ("legacy_id", "leg_id_long"), ("text", "b"), ("description", "a...")]
        1).map (fun l => endsWithMarker l.description.data)) = some true ∧
    ¬ 200 < (descSourceUpd
        [("title", "T"), ("legacy_id", "leg_id_long"), ("text", "b"), ("description", "a...")]).length := by
  constructor <;> decide

/-- **C10** — amended.  In the Sequential variant the truncation decision is
taken on the length of the raw (stripped, pre-normalization) description
source while the slice is taken from the normalized text: the output
description is `clean_text(src)[:200] + "..."` exactly when the raw source
exceeds 200 characters (even when its normalized form is 200 characters or
fewer), and it ends in the marker if and only if the raw source exceeds 200
characters — provided the normalized source does not itself happen to end
in `"..."`. -/
theorem c10_truncation_on_raw_length :
    ∀ (row : Row) (n : Int) (l : Lesson), parseLessonRowUpd row n = some l →
      (l.description =
        if (descSourceUpd row).length > 200 then
          String.mk ((cleanTextUpd (descSourceUpd row)).data.take 200 ++ ['.', '.', '.'])
        else cleanTextUpd (descSourceUpd row)) ∧
      (endsWithMarker (cleanTextUpd (descSourceUpd row)).data = false →
        (endsWithMarker l.description.data = true ↔ 200 < (descSourceUpd row).length)) := by
  intro row n l h
  have hdesc : l.description =
      if (descSourceUpd row).length > 200 then
        String.mk ((cleanTextUpd (descSourceUpd row)).data.take 200 ++ ['.', '.', '.'])
      else cleanTextUpd (descSourceUpd row) := by
    simp only [parseLessonRowUpd] at h
    split at h
    · exact absurd h (by simp)
    · have := (Option.some.injEq _ _).mp h
      subst this
      simp [descSourceUpd]
  refine ⟨hdesc, fun hclean => ?_⟩
  rw [hdesc]
  by_cases hlen : 200 < (descSourceUpd row).length
  · rw [if_pos hlen]
    simp [hlen, endsWithMarker_append]
  · rw [if_neg hlen]
    simp [hclean, hlen]

/-- Witness for C10: the amended statement instantiated at a concrete
accepted row with a short description. -/
theorem c10_truncation_on_raw_length_witness :
    (endsWithMarker
        ({ id := 1, longId := "leg_id_long", courseId := 8, title := "T",
           description := "abc", coverImage := "t_cover.jpg", content := "b" : Lesson}).description.data = true ↔
      200 < (descSourceUpd
        [("title", "T"), ("legacy_id", "leg_id_long"), ("text", "b"), ("description", "abc")]).length) :=
  (c10_truncation_on_raw_length
    [("title", "T"), ("legacy_id", "leg_id_long"), ("text", "b"), ("description", "abc")] 1
    { id := 1, longId := "leg_id_long", courseId := 8, title := "T",
      description := "abc", coverImage := "t_cover.jpg", content := "b" }
    (by decide)).2 (by decide)

instance : IsTotal StoreLesson (fun a b => a.id ≤ b.id) :=
  ⟨fun a b => Int.le_total a.id b.id⟩

instance : IsTrans StoreLesson (fun a b => a.id ≤ b.id) :=
  ⟨fun _ _ _ h1 h2 => le_trans h1 h2⟩

instance : IsTotal Lesson (fun a b => a.id ≤ b.id) :=
  ⟨fun a b => Int.le_total a.id b.id⟩

instance : IsTrans Lesson (fun a b => a.id ≤ b.id) :=
  ⟨fun _ _ _ h1 h2 => le_trans h1 h2⟩

instance : IsTotal LessonMapping (fun a b => a.shortId ≤ b.shortId) :=
  ⟨fun a b => Int.le_total a.shortId b.shortId⟩

instance : IsTrans LessonMapping (fun a b => a.shortId ≤ b.shortId) :=
  ⟨fun _ _ _ h1 h2 => le_trans h1 h2⟩

/-- **C7** — confirmed.  Every lesson collection written to the content
store and every `LESSON_MAPPINGS` array written to the mapping module is
sorted ascending by its numeric id: the complete variant sorts both parse
results and emits mappings in the order of the sorted lessons, and the
68/update variants sort in `generate_course_content` /
`generate_lesson_mappings`. -/
theorem c7_outputs_sorted :
    (∀ rows, List.Sorted (fun a b => a.id ≤ b.id) (parseCsvLessonsC rows).1) ∧
    (∀ rows, List.Sorted (fun a b => a.shortId ≤ b.shortId) (parseCsvLessonsC rows).2) ∧
    (∀ rows, List.Sorted (fun a b => a.shortId ≤ b.shortId)
      (generateLessonMappingsC (parseCsvLessonsC rows).1)) ∧
    (∀ lessons, List.Sorted (fun a b => a.id ≤ b.id) (generateCourseContent lessons)) ∧
    (∀ lessons, List.Sorted (fun a b => a.shortId ≤ b.shortId)
      (generateMappingsSorted lessons)) := by
  refine ⟨fun rows => List.sorted_insertionSort _ _,
          fun rows => List.sorted_insertionSort _ _,
          fun rows => ?_,
          fun lessons => List.sorted_insertionSort _ _,
          fun lessons => List.sorted_insertionSort _ _⟩
  exact List.Pairwise.map _ (fun a b h => h) (List.sorted_insertionSort _ _)

lemma parseLessonRowUpd_id (row : Row) (n : Int) (l : Lesson)
    (h : parseLessonRowUpd row n = some l) : l.id = n := by
  simp only [parseLessonRowUpd] at h
  split at h
  · exact absurd h (by simp)
  · have := (Option.some.injEq _ _).mp h
    subst this
    rfl

lemma updAux_id_ge : ∀ (rows : List Row) (n : Int) (l : Lesson),
    l ∈ parseLessonsCsvUpdAux n rows → n ≤ l.id := by
  intro rows
  induction rows with
  | nil => intro n l h; simp [parseLessonsCsvUpdAux] at h
  | cons row rest ih =>
    intro n l h
    simp only [parseLessonsCsvUpdAux] at h
    cases hp : parseLessonRowUpd row n with
    | some l0 =>
      rw [hp] at h
      rcases List.mem_cons.mp h with rfl | hmem
      · exact le_of_eq (parseLessonRowUpd_id row n l hp).symm
      · have := ih (n + 1) l hmem
        omega
    | none =>
      rw [hp] at h
      have := ih (n + 1) l h
      omega

lemma updAux_sorted : ∀ (rows : List Row) (n : Int),
    List.Sorted (· < ·) ((parseLessonsCsvUpdAux n rows).map (·.id)) := by
  intro rows
  induction rows with
  | nil => intro n; simp [parseLessonsCsvUpdAux]
  | cons row rest ih =>
    intro n
    simp only [parseLessonsCsvUpdAux]
    cases hp : parseLessonRowUpd row n with
    | none => exact ih (n + 1)
    | some l0 =>
      simp only [List.map_cons, List.sorted_cons]
      refine ⟨?_, ih (n + 1)⟩
      intro b hb
      obtain ⟨l, hl, rfl⟩ := List.mem_map.mp hb
      have h1 := updAux_id_ge rest (n + 1) l hl
      have h0 := parseLessonRowUpd_id row n l0 hp
      omega

lemma updAux_index : ∀ (rows : List Row) (n : Int) (l : Lesson),
    l ∈ parseLessonsCsvUpdAux n rows →
    ∃ i, ∃ h : i < rows.length, parseLessonRowUpd (rows.get ⟨i, h⟩) (n + i) = some l := by
  intro rows
  induction rows with
  | nil => intro n l h; simp [parseLessonsCsvUpdAux] at h
  | cons row rest ih =>
    intro n l h
    simp only [parseLessonsCsvUpdAux] at h
    have step : ∀ l', l' ∈ parseLessonsCsvUpdAux (n + 1) rest →
        ∃ i, ∃ hh : i < (row :: rest).length,
          parseLessonRowUpd ((row :: rest).get ⟨i, hh⟩) (n + i) = some l' := by
      intro l' hmem
      obtain ⟨i, hi, hparse⟩ := ih (n + 1) l' hmem
      refine ⟨i + 1, by simpa using Nat.succ_lt_succ hi, ?_⟩
      have harith : n + (↑(i + 1) : Int) = (n + 1) + ↑i := by push_cast; ring
      rw [harith]
      simpa using hparse
    cases hp : parseLessonRowUpd row n with
    | some l0 =>
      rw [hp] at h
      rcases List.mem_cons.mp h with rfl | hmem
      · exact ⟨0, by simp, by simpa using hp⟩
      · exact step l hmem
    | none =>
      rw [hp] at h
      exact step l h

/-- **C2** — counterexample.  A first row missing `title` (skipped) and a
second accepted row: the accepted record receives `shortId` 2 — its
position among ALL rows — not its 1-based ordinal 1 among accepted rows, so
the assigned ids are `[2]`, not `1..n`. -/
theorem c2_counterexample :
    ((parseLessonsCsvUpd
        [[("title", ""), ("legacy_id", "x"), ("text", "b")],
         [("title", "T"), ("legacy_id", "leg_id_long"), ("text", "b")]]).map (fun l => l.id))
      = [2] ∧
    ((List.range (parseLessonsCsvUpd
        [[("title", ""), ("legacy_id", "x"), ("text", "b")],
         [("title", "T"), ("legacy_id", "leg_id_long"), ("text", "b")]]).length).map
        (fun i => (i : Int) + 1)) = [1] ∧
    ([2] : List Int) ≠ [1] := by
  refine ⟨by decide, by decide, by decide⟩

/-- **C2** — amended.  Under the Sequential policy each accepted record's
`shortId` equals one plus the 0-based index of its source row among ALL
rows (skipped rows included): `parse_lesson_row` stores its `sequence_id`
argument as the id, every accepted record stems from source row `i` with
sequence id `1 + i`, and the assigned ids are strictly increasing (hence
pairwise distinct) — but they are exactly `1..n` only when no accepted row
is preceded by a skipped one. -/
theorem c2_sequential_ids :
    (∀ (row : Row) (n : Int) (l : Lesson), parseLessonRowUpd row n = some l → l.id = n) ∧
    (∀ rows, List.Sorted (· < ·) ((parseLessonsCsvUpd rows).map (fun l => l.id))) ∧
    (∀ (rows : List Row) (l : Lesson), l ∈ parseLessonsCsvUpd rows →
      ∃ i, ∃ h : i < rows.length, parseLessonRowUpd (rows.get ⟨i, h⟩) (1 + i) = some l) := by
  refine ⟨parseLessonRowUpd_id, fun rows => updAux_sorted rows 1, fun rows l h => ?_⟩
  exact updAux_index rows 1 l h

/-- Witness for C2: the amended statement instantiated at a concrete
accepted row. -/
theorem c2_sequential_ids_witness :
    ({ id := 1, longId := "leg_id_long", courseId := 8, title := "T",
       description := "abc", coverImage := "t_cover.jpg", content := "b" : Lesson}).id = 1 :=
  c2_sequential_ids.1
    [("title", "T"), ("legacy_id", "leg_id_long"), ("text", "b"), ("description", "abc")] 1
    { id := 1, longId := "leg_id_long", courseId := 8, title := "T",
      description := "abc", coverImage := "t_cover.jpg", content := "b" }
    (by decide)

/-- The contribution of a single row to the `parse_csv_lessons`
accumulators, i.e. the state after processing just this row. -/
def rowOutC (row : Row) : ParseStateC :=
  processRowC ⟨[], [], 0, 0⟩ row

lemma processRowC_decomp (st : ParseStateC) (row : Row) :
    processRowC st row =
      ⟨st.lessons ++ (rowOutC row).lessons, st.mappings ++ (rowOutC row).mappings,
       st.processed + (rowOutC row).processed, st.skipped + (rowOutC row).skipped⟩ := by
  unfold rowOutC processRowC
  repeat' split
  all_goals try simp_all
  all_goals (split <;> simp_all)

lemma parseStateC_decomp : ∀ (rows : List Row) (st : ParseStateC),
    rows.foldl processRowC st =
      ⟨st.lessons ++ rows.flatMap (fun r => (rowOutC r).lessons),
       st.mappings ++ rows.flatMap (fun r => (rowOutC r).mappings),
       st.processed + (rows.map (fun r => (rowOutC r).processed)).sum,
       st.skipped + (rows.map (fun r => (rowOutC r).skipped)).sum⟩ := by
  intro rows
  induction rows with
  | nil => intro st; cases st; simp
  | cons row rest ih =>
    intro st
    simp only [List.foldl_cons]
    rw [ih, processRowC_decomp]
    simp [List.append_assoc, Nat.add_assoc]

/-- A row that the claim C6 is about: its `longId` (`lesson_id`) or `title`
column is missing, or holds a value that is empty after the cleanup applied
by `parse_csv_lessons` (`complete-lesson-replacement.py`). -/
def badRowC (row : Row) : Prop :=
  (rowGet row "lesson_id" = none ∨ pyStripS ((rowGet row "lesson_id").getD "") = "") ∨
  (rowGet row "title" = none ∨ cleanTextC ((rowGet row "title").getD "") = "")

instance (row : Row) : Decidable (badRowC row) := by
  unfold badRowC
  infer_instance

lemma rowOutC_bad (row : Row) (h : badRowC row) : rowOutC row = ⟨[], [], 0, 1⟩ := by
  unfold rowOutC processRowC
  repeat' split
  all_goals try rfl
  all_goals simp_all [badRowC]

lemma filterMap_eq_flatMap_toList {α β : Type} (f : α → Option β) :
    ∀ l : List α, l.filterMap f = l.flatMap (fun a => (f a).toList) := by
  intro l
  induction l with
  | nil => rfl
  | cons a t ih => cases hf : f a <;> simp [List.filterMap_cons, hf, ih]

/-- The integer that `parse_csv_lessons` would read from the
`lesson_id_new` column of a row (`int(row['lesson_id_new'])`). -/
def rowIdC (row : Row) : Option Int :=
  (rowGet row "lesson_id_new").bind pyInt?

lemma rowOutC_ids_sublist (row : Row) :
    List.Sublist ((rowOutC row).lessons.map (fun l => l.id)) (rowIdC row).toList := by
  unfold rowOutC processRowC rowIdC
  repeat' split
  all_goals try simp_all
  all_goals (split <;> simp_all)

lemma parseStateC_lessons_ids_sublist (rows : List Row) :
    List.Sublist ((parseStateC rows).lessons.map (fun l => l.id)) (rows.filterMap rowIdC) := by
  unfold parseStateC
  rw [parseStateC_decomp rows ⟨[], [], 0, 0⟩]
  simp only [List.nil_append]
  rw [filterMap_eq_flatMap_toList, List.map_flatMap]
  induction rows with
  | nil => simp
  | cons row rest ih =>
    simp only [List.flatMap_cons]
    exact (rowOutC_ids_sublist row).append ih

/-- **C6** — confirmed.  A row whose `title` or `longId` field is missing
or empty never raises (`parse_csv_lessons` catches per-row exceptions and
`parse_lesson_row` returns `None`): in the complete variant the batch output
(lessons and mappings) is exactly that of the input without the row while
the skipped counter increments by one, and in the process-68 variant the
row parses to `None`, so no record derived from it can reach the content
store or the mapping module. -/
theorem c6_missing_fields_skipped :
    (∀ (rows1 rows2 : List Row) (row : Row), badRowC row →
      parseCsvLessonsC (rows1 ++ row :: rows2) = parseCsvLessonsC (rows1 ++ rows2) ∧
      (parseStateC (rows1 ++ row :: rows2)).skipped =
        (parseStateC (rows1 ++ rows2)).skipped + 1) ∧
    (∀ row : Row,
      (getFieldValue row ["lesson_id", "long_id", "lesson_long_id"] = none ∨
       getFieldValue row ["title", "lesson_title", "name"] = none) →
      parseLessonRow68 row = none) := by
  constructor
  · intro rows1 rows2 row h
    have hbad := rowOutC_bad row h
    have hstates : parseStateC (rows1 ++ row :: rows2) =
        ⟨(parseStateC (rows1 ++ rows2)).lessons, (parseStateC (rows1 ++ rows2)).mappings,
         (parseStateC (rows1 ++ rows2)).processed, (parseStateC (rows1 ++ rows2)).skipped + 1⟩ := by
      unfold parseStateC
      rw [parseStateC_decomp (rows1 ++ row :: rows2) ⟨[], [], 0, 0⟩,
          parseStateC_decomp (rows1 ++ rows2) ⟨[], [], 0, 0⟩]
      simp [hbad, List.flatMap_append, Nat.add_comm, Nat.add_assoc, Nat.add_left_comm]
    constructor
    · simp only [parseCsvLessonsC, hstates]
    · rw [hstates]
  · intro row h
    cases hA : getFieldValue row ["lesson_id_new", "id", "lesson_id"] <;>
      cases hB : getFieldValue row ["lesson_id", "long_id", "lesson_long_id"] <;>
        cases hC : getFieldValue row ["title", "lesson_title", "name"] <;>
          simp_all [parseLessonRow68]

/-- Witness for C6: a concrete row with a `lesson_id` but no `title`
contributes nothing to the outputs, bumps the skipped counter, and parses
to `None` in the process-68 variant. -/
theorem c6_missing_fields_skipped_witness :
    parseCsvLessonsC [[("lesson_id", "x")]] = parseCsvLessonsC [] ∧
    parseLessonRow68 [("lesson_id", "x")] = none :=
  ⟨(c6_missing_fields_skipped.1 [] [] [("lesson_id", "x")] (by decide)).1,
   c6_missing_fields_skipped.2 [("lesson_id", "x")] (by decide)⟩

/-- **C1** — counterexample.  Under the Direct policy
(`complete-lesson-replacement.py`), two rows carrying the same
`lesson_id_new` value 5 both survive into the written content store, whose
id column is then `[5, 5]` — not pairwise unique. -/
theorem c1_counterexample :
    ((parseCsvLessonsC
        [[("lesson_id_new", "5"), ("lesson_id", "a_b_c_d_e_f"), ("title", "T1"),
          ("description", ""), ("text", "x")],
         [("lesson_id_new", "5"), ("lesson_id", "g_h_i_j_k_l"), ("title", "T2"),
          ("description", ""), ("text", "y")]]).1.map (fun l => l.id)) = [5, 5] ∧
    ¬ (([5, 5] : List Int).Nodup) := by
  constructor <;> decide

/-- **C1** — amended.  Under the Sequential policy the written content
store always has pairwise-distinct ids; under the Direct policy it does
whenever the integers read from the `lesson_id_new` column of the input
rows are pairwise distinct (the script never deduplicates them). -/
theorem c1_store_ids_unique :
    (∀ rows, ((generateCourseContent (parseLessonsCsvUpd rows)).map (fun l => l.id)).Nodup) ∧
    (∀ rows, (rows.filterMap rowIdC).Nodup →
      ((parseCsvLessonsC rows).1.map (fun l => l.id)).Nodup) := by
  constructor
  · intro rows
    have hsorted : List.Sorted (· < ·) ((parseLessonsCsvUpd rows).map (fun l => l.id)) :=
      updAux_sorted rows 1
    have hnodup := hsorted.nodup
    have hperm : List.Perm ((generateCourseContent (parseLessonsCsvUpd rows)).map (fun l => l.id))
        ((parseLessonsCsvUpd rows).map (fun l => l.id)) := by
      unfold generateCourseContent sortById
      refine ((List.perm_insertionSort _ _).map _).trans ?_
      rw [List.map_map]
      exact List.Perm.refl _
    exact hperm.nodup_iff.mpr hnodup
  · intro rows h
    have hsub := parseStateC_lessons_ids_sublist rows
    have hnodup : ((parseStateC rows).lessons.map (fun l => l.id)).Nodup :=
      List.Nodup.sublist hsub h
    have hperm : List.Perm ((parseCsvLessonsC rows).1.map (fun l => l.id))
        ((parseStateC rows).lessons.map (fun l => l.id)) := by
      simp only [parseCsvLessonsC, sortById]
      exact (List.perm_insertionSort _ _).map _
    exact hperm.nodup_iff.mpr hnodup

/-- Witness for C1: two rows with distinct `lesson_id_new` values 5 and 9
yield a store with distinct ids, and the Sequential conjunct instantiated
at the same input. -/
theorem c1_store_ids_unique_witness :
    ((parseCsvLessonsC
        [[("lesson_id_new", "5"), ("lesson_id", "a_b_c_d_e_f"), ("title", "T1"),
          ("description", ""), ("text", "x")],
         [("lesson_id_new", "9"), ("lesson_id", "g_h_i_j_k_l"), ("title", "T2"),
          ("description", ""), ("text", "y")]]).1.map (fun l => l.id)).Nodup :=
  c1_store_ids_unique.2
    [[("lesson_id_new", "5"), ("lesson_id", "a_b_c_d_e_f"), ("title", "T1"),
      ("description", ""), ("text", "x")],
     [("lesson_id_new", "9"), ("lesson_id", "g_h_i_j_k_l"), ("title", "T2"),
      ("description", ""), ("text", "y")]] (by decide)

end SmartyMe
